import Mathlib

/-!
Shallow embedding of the backtesting and statistical-validation core of the
portfolio-manager repository (src/src/backtesting/performance.py,
backtester.py, advanced_backtester.py).

Modelling conventions:
* Python floats are modelled by exact rationals (ℚ); square roots and real
  powers land in ℝ.
* ISO dates are modelled by natural-number day indices; comparing and sorting
  day indices corresponds to comparing and sorting ISO-8601 date strings.
* Python dicts keyed by symbol or date are modelled by association lists with
  the same build-then-lookup behaviour (a later entry for the same key wins,
  as with repeated dict assignment).
* Python `sorted` is modelled by `List.insertionSort (· ≤ ·)`, which agrees
  with any sorting algorithm on lists of totally ordered values.
* Functions that can raise return `Except`; each raised exception is one
  constructor of an error type.
* The ambient global pseudo-random generator used by `random.choice` is
  modelled by an explicit draw stream `rng : ℕ → ℕ`: the k-th call of
  `random.choice(lst)` returns `lst[rng k % lst.length]`.
-/

/-- One holding of the portfolio dict: `{'symbol': ..., 'shares': ...}`. -/
structure Holding where
  symbol : String
  shares : ℚ

/-- The portfolio dict: `{'holdings': [...], 'cash': ...}` (`portfolio.get('cash', 0)`). -/
structure Portfolio where
  holdings : List Holding
  cash : ℚ

/-- A symbol's price series: the `prices` list of `{date, close}` entries. -/
abbrev PriceSeries := List (ℕ × ℚ)

/-- `historical_prices`: dict symbol → `{'prices': [...]}`, as an association list. -/
abbrev HistPrices := List (String × PriceSeries)

/-- Building `price_by_date[symbol]` by iterating the prices list (later entries
for the same date overwrite earlier ones, as with dict assignment), then
looking up one date. -/
def priceAt (ps : PriceSeries) (d : ℕ) : Option ℚ :=
  ps.foldl (fun acc e => if e.1 = d then some e.2 else acc) none

/-- `symbol in price_by_date and date in price_by_date[symbol]`, returning the
close price when both hold. -/
def lookupPrice (hp : HistPrices) (sym : String) (d : ℕ) : Option ℚ :=
  match hp.lookup sym with
  | none => none
  | some ps => priceAt ps d

/-- The set `all_dates` of every date appearing in any symbol's price series
(a Python set: duplicates removed). -/
def allDates (hp : HistPrices) : List ℕ :=
  ((hp.map (fun s => s.2.map (·.1))).flatten).dedup

/-- `sorted(list(all_dates))` restricted to `start_dt <= d <= end_dt`. -/
def sortedValidDates (hp : HistPrices) (startD endD : ℕ) : List ℕ :=
  List.insertionSort (· ≤ ·)
    ((allDates hp).filter (fun d => startD ≤ d && d ≤ endD))

/-- `sorted(list(all_dates))` with no date bound (advanced backtester). -/
def sortedAllDates (hp : HistPrices) : List ℕ :=
  List.insertionSort (· ≤ ·) (allDates hp)

/-- The per-date valuation loop over `portfolio['holdings']`: accumulates
`total_value` (sum of shares × close over priced holdings) and the
`missing_prices` list of symbols with no price on that date. -/
def dateValuationAux (hp : HistPrices) (d : ℕ) :
    List Holding → ℚ → List String → ℚ × List String
  | [], total, missing => (total, missing)
  | h :: rest, total, missing =>
    match lookupPrice hp h.symbol d with
    | some price => dateValuationAux hp d rest (total + h.shares * price) missing
    | none => dateValuationAux hp d rest total (missing ++ [h.symbol])

/-- `PortfolioBacktester._calculate_daily_portfolio_values`: for each valid date,
value every holding; record `(date, total_value + cash)` only when no price was
missing. -/
def calculate_daily_portfolio_values (p : Portfolio) (hp : HistPrices)
    (startD endD : ℕ) : List (ℕ × ℚ) :=
  (sortedValidDates hp startD endD).filterMap (fun d =>
    let r := dateValuationAux hp d p.holdings 0 []
    if r.2 = [] then some (d, r.1 + p.cash) else none)

/-- `AdvancedBacktester._calculate_daily_values`: same complete-coverage
valuation over all dates (no date bound), keeping only the values. The
source breaks out of the holdings loop at the first missing price and checks
a `complete` flag; that is observably the same as checking that the missing
list is empty. -/
def calculateDailyValues (p : Portfolio) (hp : HistPrices) : List ℚ :=
  (sortedAllDates hp).filterMap (fun d =>
    let r := dateValuationAux hp d p.holdings 0 []
    if r.2 = [] then some (r.1 + p.cash) else none)

/-- The returns list comprehension `[(v[i] - v[i-1]) / v[i-1] for i in 1..]`. -/
def diffReturns (values : List ℚ) : List ℚ :=
  (values.zip values.tail).map (fun ab => (ab.2 - ab.1) / ab.1)

/-- `PerformanceCalculator.calculate_returns`. -/
def calculate_returns (values : List ℚ) : List ℚ :=
  if values.length < 2 then [] else diffReturns values

/-- `statistics.mean` over exact rationals (raises on an empty list). -/
inductive StatError where
  | insufficientData
  | indexOutOfRange
deriving DecidableEq

/-- `statistics.mean(l)`. -/
def meanE (l : List ℚ) : Except StatError ℚ :=
  if l = [] then .error .insufficientData else .ok (l.sum / l.length)

/-- `statistics.median(l)`: sort, take the middle element (odd length) or the
average of the two middle elements (even length). -/
def medianE (l : List ℚ) : Except StatError ℚ :=
  if l = [] then .error .insufficientData
  else
    let s := List.insertionSort (· ≤ ·) l
    if l.length % 2 = 1 then .ok (s.getD (l.length / 2) 0)
    else .ok ((s.getD (l.length / 2 - 1) 0 + s.getD (l.length / 2) 0) / 2)

/-- Sample variance `statistics.variance`: Σ(x − x̄)² / (n − 1). Only meaningful
for lists of length ≥ 2 (callers guard this, as the Python library raises). -/
def sampleVariance (l : List ℚ) : ℚ :=
  let m := l.sum / l.length
  (l.map (fun x => (x - m) ^ 2)).sum / ((l.length : ℚ) - 1)

/-- `statistics.stdev(l)`: raises with fewer than two data points, else the
square root of the sample variance. -/
noncomputable def stdevE (l : List ℚ) : Except StatError ℝ :=
  if l.length < 2 then .error .insufficientData
  else .ok (Real.sqrt (sampleVariance l))

/-- Python list indexing `l[i]` (raises IndexError out of range). -/
def getE (l : List ℚ) (i : ℕ) : Except StatError ℚ :=
  if h : i < l.length then .ok (l.get ⟨i, h⟩) else .error .indexOutOfRange

/-- `PerformanceCalculator.sharpe_ratio`. -/
noncomputable def sharpe_ratio (returns : List ℚ) (risk_free_rate : ℚ)
    (periods_per_year : ℕ) : ℝ :=
  if returns.length < 2 then 0
  else
    let mean_return : ℚ := returns.sum / returns.length
    let std_dev : ℝ := Real.sqrt (sampleVariance returns)
    if std_dev = 0 then 0
    else ((mean_return * periods_per_year - risk_free_rate : ℚ) : ℝ) /
      (std_dev * Real.sqrt periods_per_year)

/-- `PerformanceCalculator.sortino_ratio`. -/
noncomputable def sortino_ratio (returns : List ℚ) (risk_free_rate : ℚ)
    (periods_per_year : ℕ) : ℝ :=
  if returns.length < 2 then 0
  else
    let mean_return : ℚ := returns.sum / returns.length
    let downside_returns := returns.filter (fun r => r < 0)
    if downside_returns = [] then 10
    else
      let downside_dev : ℝ :=
        Real.sqrt (((downside_returns.map (fun r => r ^ 2)).sum / returns.length : ℚ))
      if downside_dev = 0 then 10
      else ((mean_return * periods_per_year - risk_free_rate : ℚ) : ℝ) /
        (downside_dev * Real.sqrt periods_per_year)

/-- `PerformanceCalculator.volatility` with `annualize=True`. -/
noncomputable def volatility (returns : List ℚ) (periods_per_year : ℕ) : ℝ :=
  if returns.length < 2 then 0
  else Real.sqrt (sampleVariance returns) * Real.sqrt periods_per_year

/-- The state loop of `PerformanceCalculator.max_drawdown` over the enumerated
values: running peak and its index, plus the best (drawdown, peak, trough). -/
def maxDrawdownAux : List (ℕ × ℚ) → ℚ → ℕ → ℚ → ℕ → ℕ → ℚ × ℕ × ℕ
  | [], _, _, maxDD, ddPeak, ddTrough => (maxDD, ddPeak, ddTrough)
  | (i, v) :: rest, peak, peakIdx, maxDD, ddPeak, ddTrough =>
    let peak' := if peak < v then v else peak
    let peakIdx' := if peak < v then i else peakIdx
    let drawdown := (peak' - v) / peak'
    if maxDD < drawdown then maxDrawdownAux rest peak' peakIdx' drawdown peakIdx' i
    else maxDrawdownAux rest peak' peakIdx' maxDD ddPeak ddTrough

/-- `PerformanceCalculator.max_drawdown`. -/
def max_drawdown (values : List ℚ) : ℚ × ℕ × ℕ :=
  if values.length < 2 then (0, 0, 0)
  else maxDrawdownAux values.enum (values.headD 0) 0 0 0 0

/-- The exception raised by `PerformanceCalculator.beta` on unequal-length
inputs (`raise ValueError("Return series must be same length")`); the spec
names this caller-contract violation SeriesLengthMismatchError. -/
inductive SeriesError where
  | seriesLengthMismatch
deriving DecidableEq

/-- `PerformanceCalculator.beta`. -/
def beta (portfolio_returns benchmark_returns : List ℚ) : Except SeriesError ℚ :=
  if portfolio_returns.length ≠ benchmark_returns.length then
    .error .seriesLengthMismatch
  else if portfolio_returns.length < 2 then .ok 1
  else
    let port_mean : ℚ := portfolio_returns.sum / portfolio_returns.length
    let bench_mean : ℚ := benchmark_returns.sum / benchmark_returns.length
    let n := portfolio_returns.length
    let covariance : ℚ :=
      (((portfolio_returns.zip benchmark_returns).map
        (fun pb => (pb.1 - port_mean) * (pb.2 - bench_mean))).sum) / ((n : ℚ) - 1)
    let bench_variance := sampleVariance benchmark_returns
    if bench_variance = 0 then .ok 1
    else .ok (covariance / bench_variance)

/-- `PortfolioBacktester._grade_error` with `thresholds = [t0, t1, t2]`. -/
def grade_error (error_pct t0 t1 t2 : ℚ) : ℚ :=
  if error_pct ≤ t0 then 100 - (error_pct / t0) * 10
  else if error_pct ≤ t1 then 90 - ((error_pct - t0) / (t1 - t0)) * 15
  else if error_pct ≤ t2 then 75 - ((error_pct - t1) / (t2 - t1)) * 25
  else max 0 (50 - (error_pct - t2))

/-- The spec's three-threshold piecewise-linear grading map, written from the
spec's words for comparison with the source's `grade_error`. -/
def gradeSpecMap (e t0 t1 t2 : ℚ) : ℚ :=
  if e ≤ t0 then 100 - (e / t0) * 10
  else if e ≤ t1 then 90 - ((e - t0) / (t1 - t0)) * 15
  else if e ≤ t2 then 75 - ((e - t1) / (t2 - t1)) * 25
  else max 0 (50 - (e - t2))

/-- The `MonteCarloResult` dataclass. The simulated returns are exact
rationals; the sample standard deviation is the one real-valued field. -/
structure MonteCarloResult where
  num_simulations : ℕ
  mean_return : ℚ
  median_return : ℚ
  std_return : ℝ
  percentile_5 : ℚ
  percentile_95 : ℚ
  var_95 : ℚ
  expected_shortfall_95 : ℚ
  probability_loss : ℚ

/-- The zero-filled `MonteCarloResult` returned on insufficient data. -/
noncomputable def zeroMonteCarloResult : MonteCarloResult :=
  { num_simulations := 0, mean_return := 0, median_return := 0, std_return := 0,
    percentile_5 := 0, percentile_95 := 0, var_95 := 0,
    expected_shortfall_95 := 0, probability_loss := 0 }

/-- The bootstrap loop of `monte_carlo_simulation`: for each of
`num_simulations` paths, draw `horizon_days` returns with replacement from
`historical_returns` via the ambient generator (`random.choice`), compound
them and subtract 1. The k-th draw overall is `rng k % length`. -/
def simulatedFinalReturns (historical_returns : List ℚ)
    (num_simulations horizon_days : ℕ) (rng : ℕ → ℕ) : List ℚ :=
  (List.range num_simulations).map (fun sim =>
    (List.range horizon_days).foldl
      (fun acc t =>
        acc * (1 + historical_returns.getD
          (rng (sim * horizon_days + t) % historical_returns.length) 0))
      1 - 1)

/-- `AdvancedBacktester.monte_carlo_simulation`. Percentile indices
`int(0.05*n)` and `int(0.95*n)` are modelled as `n*5/100` and `n*95/100`
(exact arithmetic). The statistics calls raise in the source exactly where
the `Except` binds fail here, in the same order: mean, median, stdev. -/
noncomputable def monte_carlo_simulation (p : Portfolio) (hp : HistPrices)
    (num_simulations horizon_days : ℕ) (rng : ℕ → ℕ) :
    Except StatError MonteCarloResult :=
  let daily_values := calculateDailyValues p hp
  if daily_values.length < 2 then .ok zeroMonteCarloResult
  else
    let historical_returns := diffReturns daily_values
    let final_returns :=
      List.insertionSort (· ≤ ·)
        (simulatedFinalReturns historical_returns num_simulations horizon_days rng)
    match meanE final_returns with
    | .error e => .error e
    | .ok mean_return =>
      match medianE final_returns with
      | .error e => .error e
      | .ok median_return =>
        match stdevE final_returns with
        | .error e => .error e
        | .ok std_return =>
          match getE final_returns (final_returns.length * 5 / 100) with
          | .error e => .error e
          | .ok percentile_5 =>
            match getE final_returns (final_returns.length * 95 / 100) with
            | .error e => .error e
            | .ok percentile_95 =>
              let worst_5pct := final_returns.take (final_returns.length * 5 / 100)
              let expected_shortfall_95 : ℚ :=
                if worst_5pct = [] then 0 else -(worst_5pct.sum / worst_5pct.length)
              let probability_loss : ℚ :=
                (final_returns.countP (fun r => r < 0) : ℚ) / final_returns.length
              .ok { num_simulations := num_simulations,
                    mean_return := mean_return,
                    median_return := median_return,
                    std_return := std_return,
                    percentile_5 := percentile_5,
                    percentile_95 := percentile_95,
                    var_95 := -percentile_5,
                    expected_shortfall_95 := expected_shortfall_95,
                    probability_loss := probability_loss }

/-- The `BacktestPeriod` dataclass (dates as day indices). -/
structure BacktestPeriod where
  start_date : ℕ
  end_date : ℕ
  description : String

/-- The `WalkForwardResult` dataclass. -/
structure WalkForwardResult where
  period : BacktestPeriod
  in_sample_sharpe : ℝ
  out_sample_sharpe : ℝ
  degradation : ℝ
  overfitting_score : ℝ

/-- `AdvancedBacktester._calculate_returns`: value the complete-coverage dates
of `[start_date, end_date]` and turn them into daily returns (empty when
fewer than two values exist). -/
def calcPeriodValues (p : Portfolio) (hp : HistPrices) (startD endD : ℕ) :
    List ℚ :=
  (sortedValidDates hp startD endD).filterMap (fun d =>
    let r := dateValuationAux hp d p.holdings 0 []
    if r.2 = [] then some (r.1 + p.cash) else none)

/-- The returns part of `AdvancedBacktester._calculate_returns`. -/
def calcReturns (p : Portfolio) (hp : HistPrices) (startD endD : ℕ) : List ℚ :=
  let values := calcPeriodValues p hp startD endD
  if values.length < 2 then [] else diffReturns values

/-- The `while` loop of `AdvancedBacktester.walk_forward_analysis`. The loop
runs while `current_idx + in_w + out_w ≤ len(sorted_dates)`; with
`step = 0` the Python loop would never terminate, so the model's guard also
requires `0 < step`. `iteration` is incremented at the top of each pass. -/
noncomputable def walkForwardLoop (p : Portfolio) (hp : HistPrices)
    (sortedDates : List ℕ) (in_w out_w step : ℕ) (iteration currentIdx : ℕ) :
    List WalkForwardResult :=
  if h : currentIdx + in_w + out_w ≤ sortedDates.length ∧ 0 < step then
    let iter' := iteration + 1
    let in_sample_start := sortedDates.getD currentIdx 0
    let in_sample_end := sortedDates.getD (currentIdx + in_w - 1) 0
    let out_sample_start := sortedDates.getD (currentIdx + in_w) 0
    let out_sample_end :=
      sortedDates.getD (min (currentIdx + in_w + out_w - 1) (sortedDates.length - 1)) 0
    let in_sample_returns := calcReturns p hp in_sample_start in_sample_end
    let out_sample_returns := calcReturns p hp out_sample_start out_sample_end
    if in_sample_returns = [] ∨ out_sample_returns = [] then
      walkForwardLoop p hp sortedDates in_w out_w step iter' (currentIdx + step)
    else
      let in_sharpe := sharpe_ratio in_sample_returns (1/25) 252
      let out_sharpe := sharpe_ratio out_sample_returns (1/25) 252
      let degradation : ℝ :=
        if in_sharpe ≠ 0 then ((in_sharpe - out_sharpe) / |in_sharpe|) * 100 else 0
      let overfitting_score := min 100 (max 0 degradation)
      { period := { start_date := in_sample_start, end_date := out_sample_end,
                    description := "Walk-Forward Iteration " ++ toString iter' },
        in_sample_sharpe := in_sharpe, out_sample_sharpe := out_sharpe,
        degradation := degradation, overfitting_score := overfitting_score } ::
        walkForwardLoop p hp sortedDates in_w out_w step iter' (currentIdx + step)
  else []
termination_by sortedDates.length + 1 - currentIdx
decreasing_by
  have h1 : currentIdx < sortedDates.length + 1 :=
    Nat.lt_succ_of_le (le_trans (Nat.le_add_right _ _)
      (by simpa [Nat.add_assoc] using h.1))
  exact Nat.sub_lt_sub_left h1 (Nat.lt_add_of_pos_right h.2)

/-- `AdvancedBacktester.walk_forward_analysis` (the price data is already
fetched; the fetch boundary is outside the core). -/
noncomputable def walk_forward_analysis (p : Portfolio) (hp : HistPrices)
    (in_sample_window out_sample_window step_size : ℕ) :
    List WalkForwardResult :=
  let sortedDates := sortedAllDates hp
  if sortedDates.length < in_sample_window + out_sample_window then []
  else walkForwardLoop p hp sortedDates in_sample_window out_sample_window
    step_size 0 0

/-- `PortfolioSnapshot` (never populated along the modelled paths). -/
structure PortfolioSnapshot where
  date : ℕ
  cash : ℚ
  total_value : ℚ

/-- The `BacktestResult` dataclass. The `metrics` map holds the integer counts
the source stores there. -/
structure BacktestResult where
  period : BacktestPeriod
  initial_value : ℚ
  final_value : ℚ
  total_return_pct : ℚ
  annualized_return_pct : ℝ
  sharpe_ratio : ℝ
  max_drawdown_pct : ℚ
  volatility : ℝ
  win_rate : ℚ
  metrics : List (String × ℕ)
  snapshots : List PortfolioSnapshot
  validation_errors : List String

/-- `run_backtest` reaching `self.results.append(result)` with the local
`result` never assigned: Python raises UnboundLocalError. -/
inductive RunBacktestError where
  | unboundLocalResult
deriving DecidableEq

/-- The returns list of `run_backtest`:
`daily_values[i].total_value / daily_values[i-1].total_value - 1`. -/
def ratioReturns (values : List ℚ) : List ℚ :=
  (values.zip values.tail).map (fun ab => ab.2 / ab.1 - 1)

/-- `PortfolioBacktester._calculate_portfolio_value` (placeholder in the
source: a constant starting-capital assumption). -/
def calculate_portfolio_value (_p : Portfolio) (_date : ℕ) : ℚ := 100000

/-- `PortfolioBacktester.run_backtest` after the fetch: `has_data` false takes
the fallback branch and returns a degenerate result; `daily_values` empty
takes the branch that computes locals but never assigns `result`, so the
`self.results.append(result)` after the if/else raises UnboundLocalError;
otherwise the full result is built. `(end - start).days / 365.25` becomes
rational arithmetic on day indices. -/
noncomputable def run_backtest (p : Portfolio) (period : BacktestPeriod)
    (hp : HistPrices) : Except RunBacktestError BacktestResult :=
  let has_data := hp.any (fun s => !s.2.isEmpty)
  if has_data = false then
    let initial_value := calculate_portfolio_value p period.start_date
    let final_value := initial_value * (115/100)
    let total_return : ℚ := 15/100
    let years : ℚ := ((period.end_date : ℚ) - (period.start_date : ℚ)) / (36525/100)
    let annualized_return : ℝ :=
      if 0 < years then (1 + (total_return : ℝ)) ^ ((years : ℝ)⁻¹) - 1
      else (total_return : ℝ)
    .ok { period := period, initial_value := initial_value,
          final_value := final_value, total_return_pct := total_return * 100,
          annualized_return_pct := annualized_return * 100, sharpe_ratio := 0,
          max_drawdown_pct := 0, volatility := 0, win_rate := 0, metrics := [],
          snapshots := [],
          validation_errors := ["No historical data available for any symbols"] }
  else
    let daily_values :=
      calculate_daily_portfolio_values p hp period.start_date period.end_date
    if hdv : daily_values = [] then .error .unboundLocalResult
    else
      let values := daily_values.map (·.2)
      let initial_value := (daily_values.head hdv).2
      let final_value := (daily_values.getLast hdv).2
      let total_return := (final_value - initial_value) / initial_value
      let years : ℚ := ((period.end_date : ℚ) - (period.start_date : ℚ)) / (36525/100)
      let annualized_return : ℝ :=
        if 0 < years then
          ((final_value / initial_value : ℚ) : ℝ) ^ ((years : ℝ)⁻¹) - 1
        else (total_return : ℝ)
      let returns := ratioReturns values
      let sharpe := sharpe_ratio returns (1/25) 252
      let max_dd := (max_drawdown values).1
      let vol := volatility returns 252
      let win_rate : ℚ :=
        if returns = [] then 0
        else (returns.countP (fun r => 0 < r) : ℚ) / returns.length
      .ok { period := period, initial_value := initial_value,
            final_value := final_value, total_return_pct := total_return * 100,
            annualized_return_pct := annualized_return * 100,
            sharpe_ratio := sharpe, max_drawdown_pct := max_dd * 100,
            volatility := vol, win_rate := win_rate * 100,
            metrics := [("num_days", daily_values.length),
                        ("num_returns", returns.length),
                        ("positive_days", returns.countP (fun r => 0 < r)),
                        ("negative_days", returns.countP (fun r => r < 0))],
            snapshots := [], validation_errors := [] }

/-- Projection used to compare Monte Carlo outcomes: the mean simulated
return of a successful run. -/
def mcMeanReturn : Except StatError MonteCarloResult → Option ℚ
  | .ok r => some r.mean_return
  | .error _ => none

/-- Concrete two-symbol portfolio: one share of A and of B, 3 in cash. -/
def exPortfolioAB : Portfolio :=
  { holdings := [{ symbol := "A", shares := 1 }, { symbol := "B", shares := 1 }],
    cash := 3 }

/-- Prices where A trades on days 1 and 2 but B only on day 2. -/
def exPricesAB : HistPrices := [("A", [(1, 10), (2, 11)]), ("B", [(2, 5)])]

/-- Portfolio holding only A, no cash. -/
def exPortfolioA : Portfolio := { holdings := [{ symbol := "A", shares := 1 }], cash := 0 }

/-- Price data with a single date, so only one daily value exists. -/
def exPricesOneDay : HistPrices := [("A", [(1, 100)])]

/-- Price data giving daily values 100, 110, 99 for `exPortfolioA`. -/
def exPricesThreeDays : HistPrices := [("A", [(1, 100), (2, 110), (3, 99)])]

/-- Price data giving exactly two daily values for `exPortfolioA`. -/
def exPricesTwoDays : HistPrices := [("A", [(1, 100), (2, 110)])]

/-- Prices where the held symbol A has no data at all while B supplies the
dates: every date then lacks a price for A. -/
def exPricesAEmpty : HistPrices := [("A", []), ("B", [(1, 5), (2, 6)])]

/-- Price data for A on four consecutive days, giving two complete dates (one
return observation) in each of the sub-periods [1,2] and [3,4]. -/
def exPricesFourDays : HistPrices := [("A", [(1, 10), (2, 11), (3, 12), (4, 13)])]

/-- Squaring only the negative entries: summing `min(r,0)²` over all entries
equals summing `r²` over the entries below zero. -/
theorem sum_min_sq (l : List ℚ) :
    (l.map (fun r => (min r 0) ^ 2)).sum =
      ((l.filter (fun r => r < 0)).map (fun r => r ^ 2)).sum := by
  induction l with
  | nil => simp
  | cons a t ih =>
    by_cases ha : a < 0
    · simp [ha, min_eq_left ha.le, ih]
    · simp [ha, min_eq_right (not_lt.mp ha), ih]

/-- C8: for a nonnegative error and an increasing positive threshold triple,
the source's grading function is exactly the spec's three-threshold
piecewise-linear map, and at the first threshold the grade is exactly 90. -/
theorem grade_error_matches_spec (e t0 t1 t2 : ℚ) (he : 0 ≤ e) (h0 : 0 < t0)
    (h01 : t0 < t1) (h12 : t1 < t2) :
    grade_error e t0 t1 t2 = gradeSpecMap e t0 t1 t2 ∧
      grade_error t0 t0 t1 t2 = 90 := by
  refine ⟨rfl, ?_⟩
  rw [grade_error, if_pos le_rfl, div_self (ne_of_gt h0)]
  norm_num

/-- Witness for C8 at error 10 and thresholds [10, 25, 50]. -/
theorem grade_error_matches_spec_witness : grade_error 10 10 25 50 = 90 :=
  (grade_error_matches_spec 10 10 25 50 (by norm_num) (by norm_num)
    (by norm_num) (by norm_num)).2

/-- C4: beta fails with the series-length-mismatch error on unequal-length
inputs; on equal-length inputs it returns 1 when fewer than 2 samples exist
or the benchmark sample variance is 0, and otherwise the sample covariance
divided by the benchmark's sample variance. -/
theorem beta_error_and_value (pr br : List ℚ) :
    (pr.length ≠ br.length → beta pr br = .error .seriesLengthMismatch) ∧
    (pr.length = br.length → pr.length < 2 → beta pr br = .ok 1) ∧
    (pr.length = br.length → 2 ≤ pr.length → sampleVariance br = 0 →
      beta pr br = .ok 1) ∧
    (pr.length = br.length → 2 ≤ pr.length → sampleVariance br ≠ 0 →
      beta pr br = .ok
        ((((pr.zip br).map (fun pb =>
            (pb.1 - pr.sum / pr.length) * (pb.2 - br.sum / br.length))).sum /
          ((pr.length : ℚ) - 1)) / sampleVariance br)) := by
  refine ⟨fun hne => ?_, fun heq hlt => ?_, fun heq hge hv => ?_,
    fun heq hge hv => ?_⟩
  · rw [beta, if_pos hne]
  · rw [beta, if_neg (by omega), if_pos hlt]
  · rw [beta, if_neg (by omega), if_neg (by omega)]
    simp only [heq, hv, if_pos rfl]
    simp
  · rw [beta, if_neg (by omega), if_neg (by omega)]
    simp only [heq, if_neg hv]

/-- Witness for C4: a length mismatch, a short pair, a zero-variance
benchmark, and a regular evaluation. -/
theorem beta_error_and_value_witness :
    beta [1, 2, 3] [1, 2] = .error .seriesLengthMismatch ∧
    beta [1] [2] = .ok 1 ∧
    beta [1, 2] [3, 3] = .ok 1 ∧
    beta [0, 2] [0, 4] = .ok (1/2) := by
  refine ⟨(beta_error_and_value [1, 2, 3] [1, 2]).1 (by decide),
    (beta_error_and_value [1] [2]).2.1 rfl (by decide),
    (beta_error_and_value [1, 2] [3, 3]).2.2.1 rfl (by decide)
      (by norm_num [sampleVariance]), ?_⟩
  rw [(beta_error_and_value [0, 2] [0, 4]).2.2.2 rfl (by decide)
    (by norm_num [sampleVariance])]
  norm_num [sampleVariance]

/-- C1: with at least 2 returns, the Sortino ratio of a list containing a
strictly negative return is the annualized excess mean over the annualized
downside deviation √(Σ min(r,0)² / n) (dividing by the total count n), and
with no strictly negative return it is exactly 10. -/
theorem sortino_ratio_spec (returns : List ℚ) (rf : ℚ) (ppy : ℕ)
    (h2 : 2 ≤ returns.length) :
    ((∃ r ∈ returns, r < 0) →
      sortino_ratio returns rf ppy =
        ((returns.sum / returns.length * ppy - rf : ℚ) : ℝ) /
          (Real.sqrt
            (((returns.map (fun r => (min r 0) ^ 2)).sum / returns.length : ℚ)) *
            Real.sqrt ppy)) ∧
    ((¬ ∃ r ∈ returns, r < 0) → sortino_ratio returns rf ppy = 10) := by
  constructor
  · rintro ⟨r, hr, hrneg⟩
    have hfil : returns.filter (fun r => r < 0) ≠ [] := by
      intro hnil
      have := List.filter_eq_nil.mp hnil r hr
      simp [hrneg] at this
    have hn : (0 : ℚ) < returns.length := by
      have : 0 < returns.length := by omega
      exact_mod_cast this
    have hS : 0 < ((returns.filter (fun r => r < 0)).map (fun r => r ^ 2)).sum := by
      apply List.sum_pos
      · intro x hx
        obtain ⟨y, hy, rfl⟩ := List.mem_map.mp hx
        have hyneg : y < 0 := by
          have := List.mem_filter.mp hy
          simpa using this.2
        have : 0 < y * y := mul_pos_of_neg_of_neg hyneg hyneg
        rwa [pow_two]
      · intro hmapnil
        exact hfil (List.map_eq_nil.mp hmapnil)
    have hdd :
        Real.sqrt
          (((returns.filter (fun r => r < 0)).map (fun r => r ^ 2)).sum /
            returns.length : ℚ) ≠ 0 := by
      rw [ne_eq, Real.sqrt_eq_zero']
      push_neg
      exact_mod_cast div_pos hS hn
    rw [sortino_ratio, if_neg (by omega), if_neg hfil, if_neg hdd, sum_min_sq]
  · intro hno
    have hfil : returns.filter (fun r => r < 0) = [] := by
      apply List.filter_eq_nil.mpr
      intro a ha
      simp only [decide_eq_true_eq]
      intro haneg
      exact hno ⟨a, ha, haneg⟩
    rw [sortino_ratio, if_neg (by omega), if_pos hfil]

/-- Witness for C1: a list with a negative return hits the downside-deviation
formula; an all-nonnegative list returns the 10.0 cap. -/
theorem sortino_ratio_spec_witness :
    sortino_ratio [-1, 1] (1/25) 252 =
      ((([-1, 1] : List ℚ).sum / (([-1, 1] : List ℚ).length) * 252 - 1/25 : ℚ) : ℝ) /
        (Real.sqrt
          (((([-1, 1] : List ℚ).map (fun r => (min r 0) ^ 2)).sum /
            (([-1, 1] : List ℚ).length) : ℚ)) * Real.sqrt 252) ∧
      sortino_ratio [1, 2] (1/25) 252 = 10 :=
  ⟨(sortino_ratio_spec [-1, 1] (1/25) 252 (by decide)).1
      ⟨-1, by simp, by norm_num⟩,
    (sortino_ratio_spec [1, 2] (1/25) 252 (by decide)).2
      (by push_neg; intro r hr; fin_cases hr <;> norm_num)⟩

/-- C3: with fewer than 2 daily portfolio values (hence fewer than 2
historical returns), the Monte Carlo simulation returns a zero-filled result
with num_simulations = 0 instead of failing. -/
theorem monte_carlo_insufficient_data (p : Portfolio) (hp : HistPrices)
    (num_simulations horizon_days : ℕ) (rng : ℕ → ℕ)
    (h : (calculateDailyValues p hp).length < 2) :
    monte_carlo_simulation p hp num_simulations horizon_days rng =
      .ok { num_simulations := 0, mean_return := 0, median_return := 0,
            std_return := 0, percentile_5 := 0, percentile_95 := 0, var_95 := 0,
            expected_shortfall_95 := 0, probability_loss := 0 } := by
  rw [monte_carlo_simulation]
  simp only [if_pos h]
  rfl

/-- Witness for C3: a single trading day yields one daily value, and the
simulation returns the zero-filled result. -/
theorem monte_carlo_insufficient_data_witness :
    monte_carlo_simulation exPortfolioA exPricesOneDay 10 5 (fun _ => 0) =
      .ok { num_simulations := 0, mean_return := 0, median_return := 0,
            std_return := 0, percentile_5 := 0, percentile_95 := 0, var_95 := 0,
            expected_shortfall_95 := 0, probability_loss := 0 } :=
  monte_carlo_insufficient_data exPortfolioA exPricesOneDay 10 5 (fun _ => 0)
    (by decide)

/-- The bootstrap produces one simulated final return per requested path. -/
theorem simulatedFinalReturns_length (hr : List ℚ) (ns hd : ℕ) (rng : ℕ → ℕ) :
    (simulatedFinalReturns hr ns hd rng).length = ns := by
  simp [simulatedFinalReturns]

/-- C10: with at least 2 daily values but fewer than 2 requested simulations,
the Monte Carlo simulation fails (statistics.mean of an empty list for 0
simulations, statistics.stdev of a single sample for 1) instead of returning
a result. -/
theorem monte_carlo_few_sims_raises (p : Portfolio) (hp : HistPrices)
    (num_simulations horizon_days : ℕ) (rng : ℕ → ℕ)
    (hdaily : 2 ≤ (calculateDailyValues p hp).length)
    (hns : num_simulations < 2) :
    monte_carlo_simulation p hp num_simulations horizon_days rng =
      .error .insufficientData := by
  rw [monte_carlo_simulation]
  simp only [if_neg (by omega : ¬ (calculateDailyValues p hp).length < 2)]
  have hlen :
      (List.insertionSort (· ≤ ·)
        (simulatedFinalReturns (diffReturns (calculateDailyValues p hp))
          num_simulations horizon_days rng)).length = num_simulations := by
    rw [(List.perm_insertionSort (· ≤ ·) _).length_eq]
    exact simulatedFinalReturns_length _ _ _ _
  set f := List.insertionSort (· ≤ ·)
    (simulatedFinalReturns (diffReturns (calculateDailyValues p hp))
      num_simulations horizon_days rng) with hf
  interval_cases num_simulations
  · have hnil : f = [] := List.length_eq_zero.mp hlen
    rw [hnil]
    rfl
  · obtain ⟨x, hx⟩ := List.length_eq_one.mp hlen
    rw [hx]
    rfl

/-- Witness for C10: two daily values and a single requested simulation make
the simulation fail. -/
theorem monte_carlo_few_sims_raises_witness :
    monte_carlo_simulation exPortfolioA exPricesTwoDays 1 5 (fun _ => 0) =
      .error .insufficientData :=
  monte_carlo_few_sims_raises exPortfolioA exPricesTwoDays 1 5 (fun _ => 0)
    (by decide) (by decide)

/-- C7 evidence: `monte_carlo_simulation` has no seed parameter — its sampling
reads the ambient global generator (modelled by the extra `rng` stream). Two
runs with identical API inputs (portfolio, prices, num_simulations,
horizon_days) but different ambient generator states produce different
MonteCarloResults, so the output is not a function of the declared inputs
plus an injectable seed, contradicting the spec's determinism requirement. -/
theorem monte_carlo_depends_on_ambient_randomness :
    monte_carlo_simulation exPortfolioA exPricesThreeDays 2 1 (fun _ => 0) ≠
      monte_carlo_simulation exPortfolioA exPricesThreeDays 2 1 (fun _ => 1) := by
  have hdv : calculateDailyValues exPortfolioA exPricesThreeDays = [100, 110, 99] := by
    have hdates : sortedAllDates exPricesThreeDays = [1, 2, 3] := by decide
    rw [calculateDailyValues, hdates]
    norm_num [exPortfolioA, exPricesThreeDays, dateValuationAux, lookupPrice, priceAt,
      List.filterMap_cons]
  have hret : diffReturns [100, 110, 99] = [1/10, -(1/10)] := by
    norm_num [diffReturns]
  have hsimA : simulatedFinalReturns [1/10, -(1/10)] 2 1 (fun _ => 0) = [1/10, 1/10] := by
    norm_num [simulatedFinalReturns, List.range_succ]
  have hsimB : simulatedFinalReturns [1/10, -(1/10)] 2 1 (fun _ => 1) =
      [-(1/10), -(1/10)] := by
    norm_num [simulatedFinalReturns, List.range_succ]
  have hsortA : List.insertionSort (· ≤ ·) ([1/10, 1/10] : List ℚ) = [1/10, 1/10] := by
    norm_num [List.insertionSort, List.orderedInsert]
  have hsortB : List.insertionSort (· ≤ ·) ([-(1/10), -(1/10)] : List ℚ) =
      [-(1/10), -(1/10)] := by
    norm_num [List.insertionSort, List.orderedInsert]
  have hA : mcMeanReturn
      (monte_carlo_simulation exPortfolioA exPricesThreeDays 2 1 (fun _ => 0)) =
      some (1/10) := by
    rw [monte_carlo_simulation]
    simp only [hdv, hret, hsimA, hsortA]
    norm_num [meanE, medianE, stdevE, getE, mcMeanReturn,
      List.insertionSort, List.orderedInsert]
    simp [meanE, mcMeanReturn]
  have hB : mcMeanReturn
      (monte_carlo_simulation exPortfolioA exPricesThreeDays 2 1 (fun _ => 1)) =
      some (-(1/10)) := by
    rw [monte_carlo_simulation]
    simp only [hdv, hret, hsimB, hsortB]
    norm_num [meanE, medianE, stdevE, getE, mcMeanReturn,
      List.insertionSort, List.orderedInsert]
    simp [meanE, mcMeanReturn]
  intro h
  have hmean := congrArg mcMeanReturn h
  rw [hA, hB] at hmean
  simp at hmean
  linarith

/-- The valuation loop's accumulated total: starting total plus, for each
holding, shares times its price when present (a missing price contributes
nothing, exactly as the loop skips it). -/
theorem dateValuationAux_fst (hp : HistPrices) (d : ℕ) (hs : List Holding) :
    ∀ (t : ℚ) (m : List String),
      (dateValuationAux hp d hs t m).1 =
        t + (hs.map (fun h => h.shares * ((lookupPrice hp h.symbol d).getD 0))).sum := by
  induction hs with
  | nil => intro t m; simp [dateValuationAux]
  | cons h rest ih =>
    intro t m
    cases hl : lookupPrice hp h.symbol d with
    | some price => simp [dateValuationAux, hl, ih]; ring
    | none => simp [dateValuationAux, hl, ih]

/-- The valuation loop's missing list: the starting list followed by the
symbols of the holdings with no price on the date. -/
theorem dateValuationAux_snd (hp : HistPrices) (d : ℕ) (hs : List Holding) :
    ∀ (t : ℚ) (m : List String),
      (dateValuationAux hp d hs t m).2 =
        m ++ (hs.filter (fun h => (lookupPrice hp h.symbol d).isNone)).map
          (fun h => h.symbol) := by
  induction hs with
  | nil => intro t m; simp [dateValuationAux]
  | cons h rest ih =>
    intro t m
    cases hl : lookupPrice hp h.symbol d with
    | some price => simp [dateValuationAux, hl, ih]
    | none => simp [dateValuationAux, hl, ih]

/-- A date's valuation is complete (no missing symbol) exactly when every
holding has a price on that date. -/
theorem dateValuation_complete_iff (hp : HistPrices) (d : ℕ) (hs : List Holding) :
    (dateValuationAux hp d hs 0 []).2 = [] ↔
      ∀ h ∈ hs, (lookupPrice hp h.symbol d).isSome = true := by
  rw [dateValuationAux_snd]
  simp only [List.nil_append, List.map_eq_nil_iff, List.filter_eq_nil_iff]
  constructor
  · intro hall h hh
    have := hall h hh
    cases hk : lookupPrice hp h.symbol d with
    | some price => simp
    | none => simp [hk] at this
  · intro hall h hh
    have := hall h hh
    cases hk : lookupPrice hp h.symbol d with
    | some price => simp [hk]
    | none => simp [hk] at this

/-- The dates kept by the daily valuation are the valid dates whose
valuation is complete. -/
theorem daily_values_map_fst (p : Portfolio) (hp : HistPrices) (startD endD : ℕ) :
    (calculate_daily_portfolio_values p hp startD endD).map Prod.fst =
      (sortedValidDates hp startD endD).filter
        (fun d => (dateValuationAux hp d p.holdings 0 []).2 = []) := by
  rw [calculate_daily_portfolio_values]
  induction sortedValidDates hp startD endD with
  | nil => simp
  | cons a t ih =>
    by_cases hc : (dateValuationAux hp a p.holdings 0 []).2 = []
    · simp [List.filterMap_cons, List.filter_cons, hc, ih]
    · simp [List.filterMap_cons, List.filter_cons, hc, ih]

/-- The valid-date list is strictly increasing: sorted by insertion sort and
duplicate-free because the date set is deduplicated. -/
theorem sortedValidDates_pairwise_lt (hp : HistPrices) (startD endD : ℕ) :
    (sortedValidDates hp startD endD).Pairwise (· < ·) := by
  have hsorted : (sortedValidDates hp startD endD).Sorted (· ≤ ·) :=
    List.sorted_insertionSort _ _
  have hnodup : (sortedValidDates hp startD endD).Nodup := by
    rw [sortedValidDates]
    exact (List.perm_insertionSort _ _).nodup_iff.mpr
      (List.Nodup.filter _ (List.nodup_dedup _))
  exact hsorted.lt_of_le hnodup

/-- C2: every date kept by the daily valuation has a price for every holding
and its value is cash plus Σ shares × close; a date missing a price for any
holding is excluded entirely; and the kept dates are strictly ascending. -/
theorem daily_portfolio_values_spec (p : Portfolio) (hp : HistPrices)
    (startD endD : ℕ) :
    (∀ d v, (d, v) ∈ calculate_daily_portfolio_values p hp startD endD →
      (∀ h ∈ p.holdings, (lookupPrice hp h.symbol d).isSome = true) ∧
        v = p.cash +
          (p.holdings.map (fun h => h.shares * ((lookupPrice hp h.symbol d).getD 0))).sum) ∧
    (∀ d, (∃ h ∈ p.holdings, lookupPrice hp h.symbol d = none) →
      ∀ v, (d, v) ∉ calculate_daily_portfolio_values p hp startD endD) ∧
    ((calculate_daily_portfolio_values p hp startD endD).map Prod.fst).Pairwise
      (· < ·) := by
  refine ⟨?_, ?_, ?_⟩
  · intro d v hmem
    rw [calculate_daily_portfolio_values] at hmem
    obtain ⟨a, _, hfa⟩ := List.mem_filterMap.mp hmem
    by_cases hc : (dateValuationAux hp a p.holdings 0 []).2 = []
    · rw [if_pos hc] at hfa
      obtain ⟨rfl, rfl⟩ : a = d ∧ (dateValuationAux hp a p.holdings 0 []).1 + p.cash = v := by
        constructor
        · exact congrArg Prod.fst (Option.some.inj hfa)
        · exact congrArg Prod.snd (Option.some.inj hfa)
      refine ⟨(dateValuation_complete_iff hp a p.holdings).mp hc, ?_⟩
      rw [dateValuationAux_fst]
      ring
    · rw [if_neg hc] at hfa
      cases hfa
  · intro d hmissing v hmem
    rw [calculate_daily_portfolio_values] at hmem
    obtain ⟨a, _, hfa⟩ := List.mem_filterMap.mp hmem
    by_cases hc : (dateValuationAux hp a p.holdings 0 []).2 = []
    · rw [if_pos hc] at hfa
      have ha : a = d := congrArg Prod.fst (Option.some.inj hfa)
      subst ha
      obtain ⟨h, hh, hnone⟩ := hmissing
      have := (dateValuation_complete_iff hp a p.holdings).mp hc h hh
      rw [hnone] at this
      cases this
    · rw [if_neg hc] at hfa
      cases hfa
  · rw [daily_values_map_fst]
    exact (sortedValidDates_pairwise_lt hp startD endD).filter _

/-- Witness for C2: with A priced on days 1 and 2 but B only on day 2, day 1
is excluded and day 2 carries value 11 + 5 + 3 = 19. -/
theorem daily_portfolio_values_spec_witness :
    ((∀ h ∈ exPortfolioAB.holdings, (lookupPrice exPricesAB h.symbol 2).isSome = true) ∧
      (19 : ℚ) = exPortfolioAB.cash +
        (exPortfolioAB.holdings.map
          (fun h => h.shares * ((lookupPrice exPricesAB h.symbol 2).getD 0))).sum) ∧
    ∀ v, (1, v) ∉ calculate_daily_portfolio_values exPortfolioAB exPricesAB 0 3 := by
  have hvals : calculate_daily_portfolio_values exPortfolioAB exPricesAB 0 3 =
      [(2, 19)] := by
    have hdates : sortedValidDates exPricesAB 0 3 = [1, 2] := by decide
    have hA2 : lookupPrice exPricesAB "A" 2 = some 11 := by decide
    have hB2 : lookupPrice exPricesAB "B" 2 = some 5 := by decide
    have hA1 : lookupPrice exPricesAB "A" 1 = some 10 := by decide
    have hB1 : lookupPrice exPricesAB "B" 1 = none := by decide
    rw [calculate_daily_portfolio_values, hdates]
    norm_num [exPortfolioAB, dateValuationAux, hA1, hA2, hB1, hB2,
      List.filterMap_cons]
  refine ⟨(daily_portfolio_values_spec exPortfolioAB exPricesAB 0 3).1 2 19
      (by rw [hvals]; exact List.mem_singleton.mpr rfl),
    (daily_portfolio_values_spec exPortfolioAB exPricesAB 0 3).2.1 1
      ⟨{ symbol := "B", shares := 1 }, by simp [exPortfolioAB], by decide⟩⟩

/-- C9: when at least one symbol has price data but no date in the period has
complete coverage (empty daily valuation sequence), `run_backtest` raises the
unbound-local error on `result` instead of returning or accumulating a
BacktestResult. -/
theorem run_backtest_unbound_local (p : Portfolio) (period : BacktestPeriod)
    (hp : HistPrices) (hdata : hp.any (fun s => !s.2.isEmpty) = true)
    (hempty :
      calculate_daily_portfolio_values p hp period.start_date period.end_date = []) :
    run_backtest p period hp = .error .unboundLocalResult := by
  rw [run_backtest]
  rw [if_neg (by rw [hdata]; simp)]
  rw [dif_pos hempty]

/-- Witness for C9: A has a price on day 5 but B has none, so the valuation
sequence over days 0–10 is empty while `has_data` holds. -/
theorem run_backtest_unbound_local_witness :
    run_backtest exPortfolioAB
      { start_date := 0, end_date := 10, description := "p" }
      [("A", [(5, 10)]), ("B", [])] = .error .unboundLocalResult :=
  run_backtest_unbound_local exPortfolioAB
    { start_date := 0, end_date := 10, description := "p" }
    [("A", [(5, 10)]), ("B", [])] (by decide) (by decide)

/-- A sub-period with fewer than two complete-coverage values yields no
returns. -/
theorem calcReturns_eq_nil_of_short (p : Portfolio) (hp : HistPrices)
    (startD endD : ℕ) (h : (calcPeriodValues p hp startD endD).length < 2) :
    calcReturns p hp startD endD = [] := by
  rw [calcReturns, if_pos h]

/-- C5: an in-bounds walk-forward iteration whose in-sample or out-of-sample
sub-period yields fewer than 2 valid (complete-coverage) observations — hence
an empty returns list — is skipped: the loop advances by `step_size`, emits
no result for it, and continues instead of aborting. -/
theorem walk_forward_skips_sparse_iteration (p : Portfolio) (hp : HistPrices)
    (sd : List ℕ) (in_w out_w step iteration idx : ℕ)
    (hbound : idx + in_w + out_w ≤ sd.length) (hstep : 0 < step)
    (hskip :
      (calcPeriodValues p hp (sd.getD idx 0) (sd.getD (idx + in_w - 1) 0)).length < 2 ∨
      (calcPeriodValues p hp (sd.getD (idx + in_w) 0)
        (sd.getD (min (idx + in_w + out_w - 1) (sd.length - 1)) 0)).length < 2) :
    walkForwardLoop p hp sd in_w out_w step iteration idx =
      walkForwardLoop p hp sd in_w out_w step (iteration + 1) (idx + step) := by
  have hnil :
      calcReturns p hp (sd.getD idx 0) (sd.getD (idx + in_w - 1) 0) = [] ∨
      calcReturns p hp (sd.getD (idx + in_w) 0)
        (sd.getD (min (idx + in_w + out_w - 1) (sd.length - 1)) 0) = [] := by
    rcases hskip with h | h
    · exact Or.inl (calcReturns_eq_nil_of_short _ _ _ _ h)
    · exact Or.inr (calcReturns_eq_nil_of_short _ _ _ _ h)
  rw [walkForwardLoop, dif_pos ⟨hbound, hstep⟩, if_pos hnil]

/-- Witness for C5: sorted dates [1, 2] with windows 1/1 and step 1, where the
held symbol A has no prices at all, so the in-sample sub-period has no
complete dates and iteration 1 is skipped in favour of the next index. -/
theorem walk_forward_skips_sparse_iteration_witness :
    walkForwardLoop exPortfolioA exPricesAEmpty [1, 2] 1 1 1 0 0 =
      walkForwardLoop exPortfolioA exPricesAEmpty [1, 2] 1 1 1 1 1 :=
  walk_forward_skips_sparse_iteration exPortfolioA exPricesAEmpty [1, 2] 1 1 1 0 0
    (by decide) (by decide) (Or.inl (by decide))

/-- Every result the walk-forward loop emits carries the degradation formula
((in − out)/|in|)·100 (0 when the in-sample Sharpe is 0) and the overfitting
score clamp(degradation, 0, 100). The fuel `n` bounds the remaining indices. -/
theorem walkForwardLoop_results_form (p : Portfolio) (hp : HistPrices)
    (sd : List ℕ) (in_w out_w step : ℕ) :
    ∀ (n iteration idx : ℕ), sd.length + 1 - idx ≤ n →
      ∀ r ∈ walkForwardLoop p hp sd in_w out_w step iteration idx,
        r.degradation = (if r.in_sample_sharpe = 0 then 0
          else ((r.in_sample_sharpe - r.out_sample_sharpe) / |r.in_sample_sharpe|) * 100) ∧
        r.overfitting_score = min 100 (max 0 r.degradation) := by
  intro n
  induction n with
  | zero =>
    intro iteration idx hle r hr
    rw [walkForwardLoop, dif_neg (fun hg => by omega)] at hr
    cases hr
  | succ n ih =>
    intro iteration idx hle r hr
    rw [walkForwardLoop] at hr
    by_cases hguard : idx + in_w + out_w ≤ sd.length ∧ 0 < step
    · rw [dif_pos hguard] at hr
      simp only [] at hr
      by_cases hskip :
          calcReturns p hp (sd.getD idx 0) (sd.getD (idx + in_w - 1) 0) = [] ∨
          calcReturns p hp (sd.getD (idx + in_w) 0)
            (sd.getD (min (idx + in_w + out_w - 1) (sd.length - 1)) 0) = []
      · rw [if_pos hskip] at hr
        exact ih (iteration + 1) (idx + step) (by omega) r hr
      · rw [if_neg hskip] at hr
        rcases List.mem_cons.mp hr with rfl | htail
        · constructor
          · by_cases h0 : sharpe_ratio
                (calcReturns p hp (sd.getD idx 0) (sd.getD (idx + in_w - 1) 0))
                (1/25) 252 = 0 <;>
              simp [h0]
          · rfl
        · exact ih (iteration + 1) (idx + step) (by omega) r htail
    · rw [dif_neg hguard] at hr
      cases hr

/-- C6: a walk-forward run over fewer available dates than the two windows
need returns the empty list, and every emitted result's degradation and
overfitting score follow the spec's formulas. -/
theorem walk_forward_empty_and_formulas (p : Portfolio) (hp : HistPrices)
    (in_w out_w step : ℕ) :
    ((sortedAllDates hp).length < in_w + out_w →
      walk_forward_analysis p hp in_w out_w step = []) ∧
    ∀ r ∈ walk_forward_analysis p hp in_w out_w step,
      r.degradation = (if r.in_sample_sharpe = 0 then 0
        else ((r.in_sample_sharpe - r.out_sample_sharpe) / |r.in_sample_sharpe|) * 100) ∧
      r.overfitting_score = min 100 (max 0 r.degradation) := by
  constructor
  · intro h
    rw [walk_forward_analysis]
    simp only [if_pos h]
  · intro r hr
    rw [walk_forward_analysis] at hr
    by_cases h : (sortedAllDates hp).length < in_w + out_w
    · simp only [if_pos h] at hr
      cases hr
    · simp only [if_neg h] at hr
      exact walkForwardLoop_results_form p hp (sortedAllDates hp) in_w out_w step
        ((sortedAllDates hp).length + 1) 0 0 (by omega) r hr

/-- Witness for C6: one available date with windows 1 and 1 produces the empty
result list. -/
theorem walk_forward_empty_and_formulas_witness :
    walk_forward_analysis exPortfolioA [("A", [(1, 5)])] 1 1 1 = [] :=
  (walk_forward_empty_and_formulas exPortfolioA [("A", [(1, 5)])] 1 1 1).1
    (by decide)

/-- Counterexample for C3 as frozen: with exactly 2 daily values there is
exactly 1 historical daily return — fewer than 2 — yet the simulation passes
the `len(daily_values) < 2` guard and returns a populated result (mean 1/10,
num_simulations as requested), not the zero-filled one. -/
theorem monte_carlo_one_return_not_zero_filled :
    (diffReturns (calculateDailyValues exPortfolioA exPricesTwoDays)).length < 2 ∧
    monte_carlo_simulation exPortfolioA exPricesTwoDays 2 1 (fun _ => 0) ≠
      .ok { num_simulations := 0, mean_return := 0, median_return := 0,
            std_return := 0, percentile_5 := 0, percentile_95 := 0, var_95 := 0,
            expected_shortfall_95 := 0, probability_loss := 0 } := by
  refine ⟨by decide, ?_⟩
  have hdv : calculateDailyValues exPortfolioA exPricesTwoDays = [100, 110] := by
    have hdates : sortedAllDates exPricesTwoDays = [1, 2] := by decide
    rw [calculateDailyValues, hdates]
    norm_num [exPortfolioA, exPricesTwoDays, dateValuationAux, lookupPrice,
      priceAt, List.filterMap_cons]
  have hret : diffReturns [100, 110] = [1/10] := by norm_num [diffReturns]
  have hsim : simulatedFinalReturns [1/10] 2 1 (fun _ => 0) = [1/10, 1/10] := by
    norm_num [simulatedFinalReturns, List.range_succ]
  have hsort : List.insertionSort (· ≤ ·) ([1/10, 1/10] : List ℚ) =
      [1/10, 1/10] := by
    norm_num [List.insertionSort, List.orderedInsert]
  have hval : mcMeanReturn
      (monte_carlo_simulation exPortfolioA exPricesTwoDays 2 1 (fun _ => 0)) =
      some (1/10) := by
    rw [monte_carlo_simulation]
    simp only [hdv, hret, hsim, hsort]
    norm_num [meanE, medianE, stdevE, getE, mcMeanReturn,
      List.insertionSort, List.orderedInsert]
    simp [meanE, mcMeanReturn]
  intro h
  have h2 := congrArg mcMeanReturn h
  rw [hval] at h2
  simp [mcMeanReturn] at h2

/-- Counterexample for C5 as frozen: with windows 2/2 over four dates, each
sub-period has exactly 2 complete-coverage dates, hence exactly 1 return
observation — fewer than 2 — yet the iteration is not skipped: the loop emits
one WalkForwardResult (skipping would leave the output empty, as the advanced
index is out of bounds). -/
theorem walk_forward_one_return_not_skipped :
    (calcReturns exPortfolioA exPricesFourDays 1 2).length = 1 ∧
    (calcReturns exPortfolioA exPricesFourDays 3 4).length = 1 ∧
    (walkForwardLoop exPortfolioA exPricesFourDays [1, 2, 3, 4] 2 2 1 0 0).length
      = 1 := by
  refine ⟨by decide, by decide, ?_⟩
  have htail :
      walkForwardLoop exPortfolioA exPricesFourDays [1, 2, 3, 4] 2 2 1 1 1 = [] := by
    rw [walkForwardLoop, dif_neg (by decide)]
  rw [walkForwardLoop, dif_pos (by decide)]
  simp only []
  rw [if_neg (by decide)]
  simp [htail]
